import Mathlib

/-!
Verification of FlowMate: a Hamiltonian phase-portrait visualiser.

The repository has two near-duplicate modules, the top-level `__init__.py`
and the package `FlowMate/__init__.py`, each defining `get_vector_field`
(a pure vector-field evaluator over a phase-space meshgrid) and
`plot_phase_portrait` (a matplotlib rendering wrapper).

Modelling choices of the shallow embedding:
  * numpy 2D arrays are `Arr α`: an explicit shape `(rows, cols)` together
    with an entry function; array values are exact rationals `ℚ`
    (the specification's algebraic claims are about shapes, broadcasting
    and exact data flow, not rounding);
  * numpy elementwise broadcasting over two 2D operands follows numpy's
    rule: each dimension pair must be equal or contain a 1, a size-1
    dimension being indexed at 0 (`bdim`, `bidx`); a broadcast failure —
    a raised numpy error — is `Option.none`;
  * a Python value that is either a scalar or an array (what a user
    equations function may return) is `NdVal`;
  * a user equations function is `HamEqns`: it receives the two grid
    components and the already-unpacked list of extra positional
    arguments, and returns `none` when the Python call would raise
    (for example a wrong arity);
  * the `args` parameter is `ArgSeq`, keeping the constructor (list or
    tuple) visible because the source compares `args == []`, which in
    Python is true only for an empty *list*, not an empty tuple;
  * `np.sqrt` is an abstract parameter `np_sqrt : ℚ → ℚ` of the renderer
    (square roots of rationals are in general irrational); the IEEE
    behaviour of elementwise division that the spec relies on — finite
    over nonzero, `NaN` for `0/0`, `±Inf` for `x/0` — is modelled exactly
    by `npDiv` into the extended value type `NpQ`;
  * the renderer's observable behaviour is a `PlotResult`: the ordered
    list of matplotlib effects it performed, the final global pyplot
    state (the `figure.facecolor` rcParam it may mutate), and an `ok`
    flag that is `false` when the Python call raises partway (the
    effects already performed are kept, as in Python).
-/

/-- A numpy 2D array over scalars `α`: a shape and an entry function.
Only entries with `i < rows` and `j < cols` are meaningful. -/
structure Arr (α : Type) where
  rows : Nat
  cols : Nat
  entry : Nat → Nat → α

/-- numpy broadcast of one dimension pair: equal sizes, or one of them 1. -/
def bdim (a b : Nat) : Option Nat :=
  if a = b then some a else if a = 1 then some b else if b = 1 then some a else none

/-- Index used for a dimension of size `n` after broadcasting: a size-1
dimension is always read at 0. -/
def bidx (n i : Nat) : Nat :=
  if n = 1 then 0 else i

/-- Elementwise combination of two arrays with numpy 2D broadcasting;
`none` models the raised numpy shape-mismatch error. -/
def Arr.zipB {α β γ : Type} (f : α → β → γ) (A : Arr α) (B : Arr β) : Option (Arr γ) :=
  match bdim A.rows B.rows, bdim A.cols B.cols with
  | some r, some c =>
      some ⟨r, c, fun i j =>
        f (A.entry (bidx A.rows i) (bidx A.cols j)) (B.entry (bidx B.rows i) (bidx B.cols j))⟩
  | _, _ => none

/-- Scalar times array (numpy broadcasts a Python scalar over any shape). -/
def Arr.smul (x : ℚ) (B : Arr ℚ) : Arr ℚ :=
  ⟨B.rows, B.cols, fun i j => x * B.entry i j⟩

/-- Array divided elementwise by a scalar. -/
def Arr.divScalar (A : Arr ℚ) (x : ℚ) : Arr ℚ :=
  ⟨A.rows, A.cols, fun i j => A.entry i j / x⟩

/-- `np.ones_like`: an array of ones with the shape of the argument. -/
def Arr.ones_like (A : Arr ℚ) : Arr ℚ :=
  ⟨A.rows, A.cols, fun _ _ => 1⟩

/-- Elementwise equality of two arrays: same shape and same entries at
every in-bounds index. -/
def Arr.eqv {α : Type} (A B : Arr α) : Prop :=
  A.rows = B.rows ∧ A.cols = B.cols ∧
    ∀ i < A.rows, ∀ j < A.cols, A.entry i j = B.entry i j

/-- A Python value that is either a numeric scalar or a 2D array —
what an equations function may return for each derivative. -/
inductive NdVal where
  | scalar (x : ℚ)
  | array (A : Arr ℚ)

/-- numpy multiplication of such a value with an array (the source
multiplies each returned derivative by `np.ones_like` of a grid
component). -/
def NdVal.mulArr : NdVal → Arr ℚ → Option (Arr ℚ)
  | .scalar x, B => some (Arr.smul x B)
  | .array A, B => Arr.zipB (fun a b => a * b) A B

/-- An extended numeric value as produced by IEEE float division:
a finite number, a signed infinity, or NaN. -/
inductive NpQ where
  | num (x : ℚ)
  | posInf
  | negInf
  | nan
deriving DecidableEq

/-- `true` exactly on finite values. -/
def NpQ.isFinite : NpQ → Bool
  | .num _ => true
  | _ => false

/-- IEEE elementwise division as numpy performs it: `0/0` is NaN,
`x/0` for `x ≠ 0` is a signed infinity (numpy emits a RuntimeWarning,
not an exception), and otherwise the exact quotient. -/
def npDiv (x y : ℚ) : NpQ :=
  if y = 0 then (if x = 0 then NpQ.nan else if 0 < x then NpQ.posInf else NpQ.negInf)
  else NpQ.num (x / y)

/-- A user Hamiltonian-equations function: receives the two grid
components and the unpacked extra positional arguments, returns the two
derivatives, or `none` when the Python call raises (wrong arity, etc.). -/
def HamEqns : Type :=
  Arr ℚ → Arr ℚ → List ℚ → Option (NdVal × NdVal)

/-- The `args` argument as a Python sequence whose constructor matters:
the source tests `args == []`, which holds of an empty list but not of
an empty tuple. -/
inductive ArgSeq where
  | list (xs : List ℚ)
  | tuple (xs : List ℚ)

/-- The elements of the sequence, in order. -/
def ArgSeq.elems : ArgSeq → List ℚ
  | .list xs => xs
  | .tuple xs => xs

/-- The Python test `args == []`: true exactly for the empty list. -/
def ArgSeq.eqEmptyList : ArgSeq → Bool
  | .list [] => true
  | _ => false

/-- The mutable global pyplot state the renderer touches:
`plt.rcParams` entry `figure.facecolor`. -/
structure PltState where
  facecolor : String

/-- One observable matplotlib effect performed by the renderer, in
source order: the rcParams mutation, axes creation, axis removal, the
streamplot call, the optional quiver call, the optional savefig, and
the final show. Constant keyword arguments of the source calls are kept
as fields. -/
inductive Effect where
  | setFacecolor (c : String)
  | createAxes (aspect : String)
  | axisOff
  | streamplot (q p dq dp : Arr ℚ) (cmap : String) (density linewidth : ℚ)
      (arrowstyle : String) (color : Arr ℚ) (broken : Bool)
  | quiver (q p : Arr ℚ) (u v : Arr NpQ) (color : Arr ℚ) (cmap pivot angles : String)
  | savefig (path : String) (dpi : ℚ)
  | showFig

/-- The outcome of one renderer call: the effects performed in order,
the final global pyplot state, and whether the call returned normally
(`ok = false` models a raised exception after the listed effects). -/
structure PlotResult where
  effects : List Effect
  state : PltState
  ok : Bool

/-- The optional rendering parameters of `plot_phase_portrait`, with the
source defaults. -/
structure RenderOpts where
  vec_field : Bool := false
  save_fig : Bool := false
  density : ℚ := 3
  cmap : String := "inferno_r"
  dpi : ℚ := 300
  dark_mode : Bool := true

namespace FlowMate

/-- `FlowMate.get_vector_field` from `src/FlowMate/__init__.py`:
unpacks `(position, momentum) = phase_space` (raising — `none` — unless
the list has exactly two items), calls `X(position, momentum)` when
`args == []` and `X(position, momentum, *args)` otherwise, and returns
each derivative multiplied by `np.ones_like` of the corresponding grid
component. -/
def get_vector_field (X : HamEqns) : List (Arr ℚ) → ArgSeq → Option (Arr ℚ × Arr ℚ)
  | [position, momentum], args =>
    (if args.eqEmptyList then X position momentum [] else X position momentum args.elems).bind
      fun d =>
        (d.1.mulArr (Arr.ones_like position)).bind fun a =>
          (d.2.mulArr (Arr.ones_like momentum)).map fun b => (a, b)
  | _, _ => none

/-- `FlowMate.plot_phase_portrait` from `src/FlowMate/__init__.py`:
sets the global facecolor to black when `dark_mode`, creates an
equal-aspect axes and switches its axis off, unpacks the phase space,
evaluates the vector field, computes `magnitude = np.sqrt(dq**2+dp**2)`,
draws the streamplot coloured by the magnitude, optionally the quiver of
the magnitude-normalised field, optionally saves to the fixed filename
`phase_portrait.png` at the given dpi, and shows the figure. -/
def plot_phase_portrait (np_sqrt : ℚ → ℚ) (X : HamEqns) :
    List (Arr ℚ) → ArgSeq → RenderOpts → PltState → PlotResult
  | [position, momentum], args, opts, st =>
    let st1 := if opts.dark_mode then PltState.mk "black" else st
    let pre : List Effect :=
      (if opts.dark_mode then [Effect.setFacecolor "black"] else []) ++
        [Effect.createAxes "equal", Effect.axisOff]
    match get_vector_field X [position, momentum] args with
    | none => PlotResult.mk pre st1 false
    | some d =>
      match Arr.zipB (fun a b => np_sqrt (a ^ 2 + b ^ 2)) d.1 d.2 with
      | none => PlotResult.mk pre st1 false
      | some magnitude =>
        let stream := Effect.streamplot position momentum d.1 d.2
          opts.cmap opts.density 0.2 "-" magnitude false
        match (if opts.vec_field then
                 (Arr.zipB npDiv d.1 magnitude).bind fun u =>
                   (Arr.zipB npDiv d.2 magnitude).map fun v =>
                     [Effect.quiver position momentum u v magnitude opts.cmap "mid" "xy"]
               else some []) with
        | none => PlotResult.mk (pre ++ [stream]) st1 false
        | some quivEff =>
          PlotResult.mk (pre ++ [stream] ++ quivEff ++
            (if opts.save_fig then [Effect.savefig "phase_portrait.png" opts.dpi] else []) ++
            [Effect.showFig]) st1 true
  | _, _, opts, st =>
    PlotResult.mk
      ((if opts.dark_mode then [Effect.setFacecolor "black"] else []) ++
        [Effect.createAxes "equal", Effect.axisOff])
      (if opts.dark_mode then PltState.mk "black" else st) false

end FlowMate

namespace TopInit

/-- `get_vector_field` from the top-level `src/__init__.py` (the
near-duplicate module), translated independently with its own variable
names: unpacks `(q, p) = PS`, dispatches on `args == []`, and multiplies
each derivative by `np.ones_like` of the matching grid component. -/
def get_vector_field (X : HamEqns) : List (Arr ℚ) → ArgSeq → Option (Arr ℚ × Arr ℚ)
  | [q, p], args =>
    (if args.eqEmptyList then X q p [] else X q p args.elems).bind
      fun d =>
        (d.1.mulArr (Arr.ones_like q)).bind fun dot_q =>
          (d.2.mulArr (Arr.ones_like p)).map fun dot_p => (dot_q, dot_p)
  | _, _ => none

/-- `plot_phase_portrait` from the top-level `src/__init__.py`:
same statements as the package copy, with the module's own names
(`q`, `p`, `l` for the magnitude). -/
def plot_phase_portrait (np_sqrt : ℚ → ℚ) (X : HamEqns) :
    List (Arr ℚ) → ArgSeq → RenderOpts → PltState → PlotResult
  | [q, p], args, opts, st =>
    let st1 := if opts.dark_mode then PltState.mk "black" else st
    let pre : List Effect :=
      (if opts.dark_mode then [Effect.setFacecolor "black"] else []) ++
        [Effect.createAxes "equal", Effect.axisOff]
    match get_vector_field X [q, p] args with
    | none => PlotResult.mk pre st1 false
    | some d =>
      match Arr.zipB (fun a b => np_sqrt (a ^ 2 + b ^ 2)) d.1 d.2 with
      | none => PlotResult.mk pre st1 false
      | some l =>
        let stream := Effect.streamplot q p d.1 d.2
          opts.cmap opts.density 0.2 "-" l false
        match (if opts.vec_field then
                 (Arr.zipB npDiv d.1 l).bind fun u =>
                   (Arr.zipB npDiv d.2 l).map fun v =>
                     [Effect.quiver q p u v l opts.cmap "mid" "xy"]
               else some []) with
        | none => PlotResult.mk (pre ++ [stream]) st1 false
        | some quivEff =>
          PlotResult.mk (pre ++ [stream] ++ quivEff ++
            (if opts.save_fig then [Effect.savefig "phase_portrait.png" opts.dpi] else []) ++
            [Effect.showFig]) st1 true
  | _, _, opts, st =>
    PlotResult.mk
      ((if opts.dark_mode then [Effect.setFacecolor "black"] else []) ++
        [Effect.createAxes "equal", Effect.axisOff])
      (if opts.dark_mode then PltState.mk "black" else st) false

end TopInit

/-- `np.linspace a b n`: `n` evenly spaced samples from `a` to `b`
inclusive (for `n ≤ 1`, just `a` repeated). -/
def linspace (a b : ℚ) (n : Nat) : List ℚ :=
  (List.range n).map fun i =>
    if n ≤ 1 then a else a + (i : ℚ) * (b - a) / ((n : ℚ) - 1)

/-- `np.meshgrid xs ys` with the default 'xy' indexing: a list of two
arrays of shape `(ys.length, xs.length)`; the first repeats `xs` along
the rows, the second repeats `ys` along the columns. -/
def meshgrid (xs ys : List ℚ) : List (Arr ℚ) :=
  [⟨ys.length, xs.length, fun _ j => xs.getD j 0⟩,
   ⟨ys.length, xs.length, fun i _ => ys.getD i 0⟩]

/-- The spec's alternative calling convention for the evaluator:
unconditionally unpack the extra-args sequence into the call
(`X(position, momentum, *args)` with no dispatch on `args == []`). -/
def get_vector_field_unpacked (X : HamEqns) : List (Arr ℚ) → ArgSeq → Option (Arr ℚ × Arr ℚ)
  | [position, momentum], args =>
    (X position momentum args.elems).bind
      fun d =>
        (d.1.mulArr (Arr.ones_like position)).bind fun a =>
          (d.2.mulArr (Arr.ones_like momentum)).map fun b => (a, b)
  | _, _ => none

/-- An equations function wrapped to accept — and ignore — an empty
variadic tail: `g(q, p, *rest) = X(q, p)`. -/
def wrapIgnoreTail (X : HamEqns) : HamEqns :=
  fun q p _ => X q p []

/-- The magnitude array `np.sqrt(dq**2 + dp**2)` that the renderer's
elementwise broadcast produces when the two derivative arrays have equal
shape (`bidx` is the broadcast index map and is the identity in bounds). -/
def magArr (np_sqrt : ℚ → ℚ) (dq dp : Arr ℚ) : Arr ℚ :=
  ⟨dq.rows, dq.cols, fun i j =>
    np_sqrt (dq.entry (bidx dq.rows i) (bidx dq.cols j) ^ 2 +
      dp.entry (bidx dp.rows i) (bidx dp.cols j) ^ 2)⟩

/-- The elementwise IEEE quotient `d / M` that the renderer's quiver
normalisation produces when `d` and `M` have equal shape. -/
def normArr (d M : Arr ℚ) : Arr NpQ :=
  ⟨d.rows, d.cols, fun i j =>
    npDiv (d.entry (bidx d.rows i) (bidx d.cols j))
      (M.entry (bidx M.rows i) (bidx M.cols j))⟩

/-- The `(path, dpi)` pairs of the files a renderer call wrote, in order. -/
def savedFiles (r : PlotResult) : List (String × ℚ) :=
  r.effects.filterMap fun e =>
    match e with
    | Effect.savefig path dpi => some (path, dpi)
    | _ => none

/-- The colour arrays of the streamplot calls in a trace, in order. -/
def streamColors (r : PlotResult) : List (Arr ℚ) :=
  r.effects.filterMap fun e =>
    match e with
    | Effect.streamplot _ _ _ _ _ _ _ _ color _ => some color
    | _ => none

/-- The colour arrays of the quiver calls in a trace, in order. -/
def quiverColors (r : PlotResult) : List (Arr ℚ) :=
  r.effects.filterMap fun e =>
    match e with
    | Effect.quiver _ _ _ _ color _ _ _ => some color
    | _ => none

/-- The normalised `(u, v)` component pairs of the quiver calls in a
trace, in order. -/
def quiverUVs (r : PlotResult) : List (Arr NpQ × Arr NpQ) :=
  r.effects.filterMap fun e =>
    match e with
    | Effect.quiver _ _ u v _ _ _ _ => some (u, v)
    | _ => none

/-- `true` on effects that draw on the canvas or write a file. -/
def Effect.isDrawOrSave : Effect → Bool
  | Effect.streamplot _ _ _ _ _ _ _ _ _ _ => true
  | Effect.quiver _ _ _ _ _ _ _ _ => true
  | Effect.savefig _ _ => true
  | _ => false

/-- The arguments of one renderer call, for reasoning about sequences of
calls against the shared global pyplot state. -/
structure Call where
  np_sqrt : ℚ → ℚ
  X : HamEqns
  PS : List (Arr ℚ)
  args : ArgSeq
  opts : RenderOpts

/-- Run a sequence of renderer calls, threading the global pyplot state. -/
def runCalls : List Call → PltState → PltState
  | [], st => st
  | c :: cs, st =>
      runCalls cs (FlowMate.plot_phase_portrait c.np_sqrt c.X c.PS c.args c.opts st).state

/-- The position samples of the spec's harmonic-oscillator scenario. -/
def qSamples : List ℚ := linspace (-5) 5 21

/-- The momentum samples of the spec's harmonic-oscillator scenario. -/
def pSamples : List ℚ := linspace (-5) 5 31

/-- The scenario's phase-space grid: `np.meshgrid(q, p)`. -/
def PSharm : List (Arr ℚ) := meshgrid qSamples pSamples

/-- The scenario's equations `X(q, p, m, k) = (p/m, -k*q)`: raises
(`none`) unless exactly two extra arguments are passed. -/
def Xharm : HamEqns := fun q p as =>
  match as with
  | [m, k] => some (NdVal.array (p.divScalar m), NdVal.array (Arr.smul (-k) q))
  | _ => none

/-- A constant scalar-returning equations function used as a concrete
witness input: always `(2, 3)`. -/
def Xconst : HamEqns := fun _ _ _ =>
  some (NdVal.scalar 2, NdVal.scalar 3)

/-- An equations function returning grid-shaped zero arrays — every grid
point is an equilibrium; a concrete witness input. -/
def Xzero : HamEqns := fun q p _ =>
  some (NdVal.array ⟨q.rows, q.cols, fun _ _ => 0⟩, NdVal.array ⟨p.rows, p.cols, fun _ _ => 0⟩)

/-- A concrete 2×3 position grid component for witnesses. -/
def Qc : Arr ℚ := ⟨2, 3, fun _ j => (j : ℚ)⟩

/-- A concrete 2×3 momentum grid component for witnesses. -/
def Pc : Arr ℚ := ⟨2, 3, fun i _ => (i : ℚ) - 1⟩

/-- The renderer options with every field at its source default. -/
def defaultOpts : RenderOpts := {}

/-- The source defaults with the vector-field overlay switched on. -/
def vecFieldOpts : RenderOpts := { vec_field := true }

/-- The source defaults with saving switched on. -/
def saveOpts : RenderOpts := { save_fig := true }

/-- A concrete initial pyplot state (matplotlib's default facecolor). -/
def whiteState : PltState := PltState.mk "white"

/-- The zero 2×3 array: what `Xzero` returns on the 2×3 witness grid. -/
def Az : Arr ℚ := ⟨2, 3, fun _ _ => 0⟩

/-- The elementwise product of an array with a ones array of its own
shape, as the evaluator's broadcast produces it for an equations
function whose returned arrays match the grid components' shapes. -/
def mulOnes (A : Arr ℚ) : Arr ℚ :=
  ⟨A.rows, A.cols, fun i j => A.entry (bidx A.rows i) (bidx A.cols j) * 1⟩

/-- The position-derivative array the evaluator returns for `Xconst`
on the 2×3 witness grid. -/
def dqc : Arr ℚ := Arr.smul 2 (Arr.ones_like Qc)

/-- The momentum-derivative array the evaluator returns for `Xconst`
on the 2×3 witness grid. -/
def dpc : Arr ℚ := Arr.smul 3 (Arr.ones_like Pc)

/-- A concrete renderer call with `dark_mode` at its default `true`. -/
def darkCall : Call :=
  Call.mk (fun x => x) Xconst [Qc, Pc] (ArgSeq.list []) defaultOpts

/-!  Theorems.  -/

/-- The broadcast index map is the identity on in-bounds indices. -/
theorem bidx_eq_of_lt {n i : Nat} (h : i < n) : bidx n i = i := by
  unfold bidx; split <;> omega

/-- If the Python test `args == []` succeeds, the sequence has no elements. -/
theorem ArgSeq.elems_eq_nil {args : ArgSeq} (h : args.eqEmptyList = true) :
    args.elems = [] := by
  cases args with
  | list xs =>
    cases xs with
    | nil => rfl
    | cons a as => simp [ArgSeq.eqEmptyList] at h
  | tuple xs => simp [ArgSeq.eqEmptyList] at h

/-- Elementwise broadcasting of two equal-shaped arrays succeeds and
produces the pointwise combination (addressed through `bidx`). -/
theorem Arr.zipB_some {α β γ : Type} (f : α → β → γ) (A : Arr α) (B : Arr β)
    (hr : A.rows = B.rows) (hc : A.cols = B.cols) :
    Arr.zipB f A B =
      some ⟨A.rows, A.cols, fun i j =>
        f (A.entry (bidx A.rows i) (bidx A.cols j))
          (B.entry (bidx B.rows i) (bidx B.cols j))⟩ := by
  unfold Arr.zipB bdim
  rw [← hr, ← hc]
  simp

/-- On a well-formed two-component phase space, the evaluator's
`args == []` dispatch collapses: it always calls the equations function
with the unpacked element list (both Python branches pass the same
positional arguments when the sequence is empty). -/
theorem gvf_eq (X : HamEqns) (Q P : Arr ℚ) (args : ArgSeq) :
    FlowMate.get_vector_field X [Q, P] args =
      (X Q P args.elems).bind fun d =>
        (d.1.mulArr (Arr.ones_like Q)).bind fun a =>
          (d.2.mulArr (Arr.ones_like P)).map fun b => (a, b) := by
  simp only [FlowMate.get_vector_field]
  congr 1
  by_cases h : args.eqEmptyList = true
  · rw [if_pos h, ArgSeq.elems_eq_nil h]
  · rw [if_neg h]

/-- When the equations function returns two arrays, the evaluator
multiplies each elementwise by ones of the matching grid component. -/
theorem gvf_array (X : HamEqns) (Q P A B : Arr ℚ) (args : ArgSeq)
    (hX : X Q P args.elems = some (NdVal.array A, NdVal.array B))
    (hA : A.rows = Q.rows) (hAc : A.cols = Q.cols)
    (hB : B.rows = P.rows) (hBc : B.cols = P.cols) :
    FlowMate.get_vector_field X [Q, P] args =
      some (⟨A.rows, A.cols, fun i j =>
              A.entry (bidx A.rows i) (bidx A.cols j) * 1⟩,
            ⟨B.rows, B.cols, fun i j =>
              B.entry (bidx B.rows i) (bidx B.cols j) * 1⟩) := by
  rw [gvf_eq, hX]
  simp only [Option.bind, NdVal.mulArr]
  rw [Arr.zipB_some (fun a b => a * b) A (Arr.ones_like Q) hA hAc,
      Arr.zipB_some (fun a b => a * b) B (Arr.ones_like P) hB hBc]
  rfl

/-- Claim C1: for an equations function returning a pair of scalars
`(c1, c2)` on every input and a grid of two same-shaped components,
`get_vector_field` returns two arrays shaped like the grid, the first
filled with `c1` and the second with `c2` (the scalar is broadcast by
multiplication with a ones array shaped like the grid component). -/
theorem C1_scalar_broadcast (X : HamEqns) (c1 c2 : ℚ) (Q P : Arr ℚ) (args : ArgSeq)
    (hX : ∀ q p as, X q p as = some (NdVal.scalar c1, NdVal.scalar c2))
    (hrows : Q.rows = P.rows) (hcols : Q.cols = P.cols) :
    ∃ A B, FlowMate.get_vector_field X [Q, P] args = some (A, B) ∧
      A.rows = Q.rows ∧ A.cols = Q.cols ∧ B.rows = Q.rows ∧ B.cols = Q.cols ∧
      (∀ i < A.rows, ∀ j < A.cols, A.entry i j = c1) ∧
      (∀ i < B.rows, ∀ j < B.cols, B.entry i j = c2) := by
  rw [gvf_eq, hX]
  refine ⟨Arr.smul c1 (Arr.ones_like Q), Arr.smul c2 (Arr.ones_like P), rfl,
    rfl, rfl, hrows.symm, hcols.symm, ?_, ?_⟩ <;>
  · intro i _ j _
    simp [Arr.smul, Arr.ones_like]

/-- Witness for C1: the constant equations function `(2, 3)` on the
concrete 2×3 grid yields the constant arrays. -/
theorem C1_scalar_broadcast_witness :
    (∀ q p as, Xconst q p as = some (NdVal.scalar 2, NdVal.scalar 3)) ∧
    Qc.rows = Pc.rows ∧ Qc.cols = Pc.cols ∧
    (∃ A B, FlowMate.get_vector_field Xconst [Qc, Pc] (ArgSeq.list []) = some (A, B) ∧
      A.rows = Qc.rows ∧ A.cols = Qc.cols ∧ B.rows = Qc.rows ∧ B.cols = Qc.cols ∧
      (∀ i < A.rows, ∀ j < A.cols, A.entry i j = 2) ∧
      (∀ i < B.rows, ∀ j < B.cols, B.entry i j = 3)) :=
  ⟨fun _ _ _ => rfl, rfl, rfl,
    C1_scalar_broadcast Xconst 2 3 Qc Pc (ArgSeq.list []) (fun _ _ _ => rfl) rfl rfl⟩

/-- Claim C2: on the spec's harmonic-oscillator scenario —
`linspace(-5,5,21)` positions, `linspace(-5,5,31)` momenta, their
meshgrid, `X(q,p,m,k) = (p/m, -k*q)` with `args = [2, 10]` — the
evaluator returns `dot_q` of shape (31, 21) equal to `Momentum / 2`
and `dot_p` of shape (31, 21) equal to `-10 * Position`. -/
theorem C2_harmonic_scenario :
    ∃ A B, FlowMate.get_vector_field Xharm PSharm (ArgSeq.list [2, 10]) = some (A, B) ∧
      A.rows = 31 ∧ A.cols = 21 ∧ B.rows = 31 ∧ B.cols = 21 ∧
      (∀ i < 31, ∀ j < 21, A.entry i j = pSamples.getD i 0 / 2) ∧
      (∀ i < 31, ∀ j < 21, B.entry i j = -10 * qSamples.getD j 0) := by
  have hn : pSamples.length = 31 := rfl
  have hm : qSamples.length = 21 := rfl
  refine ⟨_, _, rfl, rfl, rfl, rfl, rfl, ?_, ?_⟩ <;>
  · intro i hi j hj
    simp only [Arr.divScalar, Arr.smul, Arr.ones_like, hn, hm]
    simp [bidx, mul_one, hi.ne, hj.ne]

/-- Claim C3: if the equations function already returns two arrays
shaped exactly like the corresponding grid components, the evaluator
returns them unchanged elementwise (multiplication by ones is the
identity). -/
theorem C3_array_identity (X : HamEqns) (Q P A B : Arr ℚ) (args : ArgSeq)
    (hX : X Q P args.elems = some (NdVal.array A, NdVal.array B))
    (hA : A.rows = Q.rows) (hAc : A.cols = Q.cols)
    (hB : B.rows = P.rows) (hBc : B.cols = P.cols) :
    ∃ A' B', FlowMate.get_vector_field X [Q, P] args = some (A', B') ∧
      A'.eqv A ∧ B'.eqv B := by
  refine ⟨_, _, gvf_array X Q P A B args hX hA hAc hB hBc, ?_, ?_⟩ <;>
  · refine ⟨rfl, rfl, ?_⟩
    intro i hi j hj
    show _ * (1 : ℚ) = _
    rw [bidx_eq_of_lt hi, bidx_eq_of_lt hj, mul_one]

/-- Witness for C3: the all-zero grid-shaped equations function on the
concrete 2×3 grid is returned unchanged. -/
theorem C3_array_identity_witness :
    Xzero Qc Pc (ArgSeq.list []).elems = some (NdVal.array Az, NdVal.array Az) ∧
    Az.rows = Qc.rows ∧ Az.cols = Qc.cols ∧ Az.rows = Pc.rows ∧ Az.cols = Pc.cols ∧
    (∃ A' B', FlowMate.get_vector_field Xzero [Qc, Pc] (ArgSeq.list []) = some (A', B') ∧
      A'.eqv Az ∧ B'.eqv Az) :=
  ⟨rfl, rfl, rfl, rfl, rfl,
    C3_array_identity Xzero Qc Pc Az Az (ArgSeq.list []) rfl rfl rfl rfl rfl⟩

/-- Claim C4: with an empty extra-args sequence — the empty list (taken
by the `args == []` branch) or the empty tuple (taken by the unpacking
branch) — the evaluator agrees with the evaluator run on the equations
function wrapped to accept and ignore an empty variadic tail; moreover
the two-branch dispatch is observationally equal to unconditionally
unpacking the extra-args sequence, on every input. -/
theorem C4_empty_args_dispatch (X : HamEqns) (PS : List (Arr ℚ)) (args : ArgSeq) :
    (args.elems = [] →
      FlowMate.get_vector_field X PS args =
        FlowMate.get_vector_field (wrapIgnoreTail X) PS args) ∧
    FlowMate.get_vector_field X PS args = get_vector_field_unpacked X PS args := by
  constructor
  · intro h
    rcases PS with _ | ⟨q, _ | ⟨p, _ | ⟨r, rest⟩⟩⟩ <;> try rfl
    rw [gvf_eq, gvf_eq, h]
    rfl
  · rcases PS with _ | ⟨q, _ | ⟨p, _ | ⟨r, rest⟩⟩⟩ <;> try rfl
    rw [gvf_eq]
    rfl

/-- Witness for C4: the empty tuple on the concrete constant system. -/
theorem C4_empty_args_dispatch_witness :
    (ArgSeq.tuple []).elems = [] ∧
    FlowMate.get_vector_field Xconst [Qc, Pc] (ArgSeq.tuple []) =
      FlowMate.get_vector_field (wrapIgnoreTail Xconst) [Qc, Pc] (ArgSeq.tuple []) :=
  ⟨rfl, (C4_empty_args_dispatch Xconst [Qc, Pc] (ArgSeq.tuple [])).1 rfl⟩

/-- The renderer's magnitude broadcast on equal-shaped derivatives. -/
theorem mag_zipB (np_sqrt : ℚ → ℚ) (dq dp : Arr ℚ)
    (hr : dq.rows = dp.rows) (hc : dq.cols = dp.cols) :
    Arr.zipB (fun a b => np_sqrt (a ^ 2 + b ^ 2)) dq dp = some (magArr np_sqrt dq dp) :=
  Arr.zipB_some _ dq dp hr hc

/-- The renderer's quiver normalisation broadcast on equal shapes. -/
theorem norm_zipB (d M : Arr ℚ) (hr : d.rows = M.rows) (hc : d.cols = M.cols) :
    Arr.zipB npDiv d M = some (normArr d M) :=
  Arr.zipB_some npDiv d M hr hc

/-- Full characterisation of a successful renderer call: when the
evaluator yields two equal-shaped derivative arrays, the trace is the
facecolor mutation (under dark mode), axes setup, the streamplot
coloured by the magnitude, the optional quiver of the normalised field,
the optional savefig, and the show, in that order. -/
theorem plot_eq_of_gvf (np_sqrt : ℚ → ℚ) (X : HamEqns) (Q P : Arr ℚ) (args : ArgSeq)
    (opts : RenderOpts) (st : PltState) (dq dp : Arr ℚ)
    (hgv : FlowMate.get_vector_field X [Q, P] args = some (dq, dp))
    (hr : dq.rows = dp.rows) (hc : dq.cols = dp.cols) :
    FlowMate.plot_phase_portrait np_sqrt X [Q, P] args opts st =
      PlotResult.mk
        ((if opts.dark_mode then [Effect.setFacecolor "black"] else []) ++
          [Effect.createAxes "equal", Effect.axisOff] ++
          [Effect.streamplot Q P dq dp opts.cmap opts.density 0.2 "-"
            (magArr np_sqrt dq dp) false] ++
          (if opts.vec_field then
            [Effect.quiver Q P (normArr dq (magArr np_sqrt dq dp))
              (normArr dp (magArr np_sqrt dq dp)) (magArr np_sqrt dq dp)
              opts.cmap "mid" "xy"]
          else []) ++
          (if opts.save_fig then [Effect.savefig "phase_portrait.png" opts.dpi] else []) ++
          [Effect.showFig])
        (if opts.dark_mode then PltState.mk "black" else st) true := by
  simp only [FlowMate.plot_phase_portrait, hgv, mag_zipB np_sqrt dq dp hr hc]
  cases hv : opts.vec_field with
  | false => simp
  | true =>
    rw [norm_zipB dq (magArr np_sqrt dq dp) rfl rfl,
        norm_zipB dp (magArr np_sqrt dq dp) hr.symm hc.symm]
    simp

/-- Claim C5: in `plot_phase_portrait`, the magnitude colouring the
streamlines and the quiver overlay is, at every grid point, the
elementwise Euclidean norm `sqrt(dot_q² + dot_p²)` of the vector field
that `get_vector_field` returns on the same equations, grid and args. -/
theorem C5_magnitude_euclidean (np_sqrt : ℚ → ℚ) (X : HamEqns) (Q P : Arr ℚ)
    (args : ArgSeq) (opts : RenderOpts) (st : PltState) (dq dp : Arr ℚ)
    (hgv : FlowMate.get_vector_field X [Q, P] args = some (dq, dp))
    (hr : dq.rows = dp.rows) (hc : dq.cols = dp.cols) :
    ∃ M, streamColors (FlowMate.plot_phase_portrait np_sqrt X [Q, P] args opts st) = [M] ∧
      (∀ M' ∈ quiverColors (FlowMate.plot_phase_portrait np_sqrt X [Q, P] args opts st),
        M' = M) ∧
      M.rows = dq.rows ∧ M.cols = dq.cols ∧
      (∀ i < dq.rows, ∀ j < dq.cols,
        M.entry i j = np_sqrt (dq.entry i j ^ 2 + dp.entry i j ^ 2)) := by
  rw [plot_eq_of_gvf np_sqrt X Q P args opts st dq dp hgv hr hc]
  refine ⟨magArr np_sqrt dq dp, ?_, ?_, rfl, rfl, ?_⟩
  · unfold streamColors
    cases opts.dark_mode <;> cases opts.vec_field <;> cases opts.save_fig <;> simp
  · unfold quiverColors
    cases opts.dark_mode <;> cases opts.vec_field <;> cases opts.save_fig <;> simp
  · intro i hi j hj
    simp only [magArr]
    rw [bidx_eq_of_lt hi, bidx_eq_of_lt hj, bidx_eq_of_lt (hr ▸ hi), bidx_eq_of_lt (hc ▸ hj)]

/-- Witness for C5: the constant system on the 2×3 grid with the
identity in place of the square root. -/
theorem C5_magnitude_euclidean_witness :
    FlowMate.get_vector_field Xconst [Qc, Pc] (ArgSeq.list []) = some (dqc, dpc) ∧
    dqc.rows = dpc.rows ∧ dqc.cols = dpc.cols ∧
    (∃ M, streamColors (FlowMate.plot_phase_portrait (fun x => x) Xconst [Qc, Pc]
        (ArgSeq.list []) defaultOpts whiteState) = [M] ∧
      (∀ M' ∈ quiverColors (FlowMate.plot_phase_portrait (fun x => x) Xconst [Qc, Pc]
        (ArgSeq.list []) defaultOpts whiteState), M' = M) ∧
      M.rows = dqc.rows ∧ M.cols = dqc.cols ∧
      (∀ i < dqc.rows, ∀ j < dqc.cols,
        M.entry i j = (fun x => x) (dqc.entry i j ^ 2 + dpc.entry i j ^ 2))) :=
  ⟨rfl, rfl, rfl,
    C5_magnitude_euclidean (fun x => x) Xconst Qc Pc (ArgSeq.list []) defaultOpts
      whiteState dqc dpc rfl rfl rfl⟩

/-- When the equations function returns two arrays, the evaluator
returns their `mulOnes` broadcasts (folded form of `gvf_array`). -/
theorem gvf_array_mulOnes (X : HamEqns) (Q P A B : Arr ℚ) (args : ArgSeq)
    (hX : X Q P args.elems = some (NdVal.array A, NdVal.array B))
    (hA : A.rows = Q.rows) (hAc : A.cols = Q.cols)
    (hB : B.rows = P.rows) (hBc : B.cols = P.cols) :
    FlowMate.get_vector_field X [Q, P] args = some (mulOnes A, mulOnes B) :=
  gvf_array X Q P A B args hX hA hAc hB hBc

/-- `mulOnes` leaves in-bounds entries unchanged. -/
theorem mulOnes_entry (A : Arr ℚ) {i j : Nat} (hi : i < A.rows) (hj : j < A.cols) :
    (mulOnes A).entry i j = A.entry i j := by
  simp only [mulOnes]
  rw [bidx_eq_of_lt hi, bidx_eq_of_lt hj, mul_one]

/-- Claim C6: an equations function returning the zero vector at a grid
point does not make `get_vector_field` raise, and with the vector-field
overlay enabled the quiver normalisation `dot_q/magnitude`,
`dot_p/magnitude` at that point is a non-finite IEEE value (NaN), not a
raised error. -/
theorem C6_zero_vector_nonfinite (np_sqrt : ℚ → ℚ) (X : HamEqns) (Q P A B : Arr ℚ)
    (args : ArgSeq) (opts : RenderOpts) (st : PltState) (i j : Nat)
    (hX : X Q P args.elems = some (NdVal.array A, NdVal.array B))
    (hA : A.rows = Q.rows) (hAc : A.cols = Q.cols)
    (hB : B.rows = P.rows) (hBc : B.cols = P.cols)
    (hQP : Q.rows = P.rows) (hQPc : Q.cols = P.cols)
    (hi : i < Q.rows) (hj : j < Q.cols)
    (hz1 : A.entry i j = 0) (hz2 : B.entry i j = 0)
    (hsqrt : np_sqrt 0 = 0) (hv : opts.vec_field = true) :
    (FlowMate.get_vector_field X [Q, P] args).isSome = true ∧
    (FlowMate.plot_phase_portrait np_sqrt X [Q, P] args opts st).ok = true ∧
    (∃ u v,
      quiverUVs (FlowMate.plot_phase_portrait np_sqrt X [Q, P] args opts st) = [(u, v)] ∧
      (u.entry i j).isFinite = false ∧ (v.entry i j).isFinite = false) := by
  have hgv := gvf_array_mulOnes X Q P A B args hX hA hAc hB hBc
  have hABr : A.rows = B.rows := by rw [hA, hB]; exact hQP
  have hABc : A.cols = B.cols := by rw [hAc, hBc]; exact hQPc
  have hiA : i < A.rows := hA.symm ▸ hi
  have hjA : j < A.cols := hAc.symm ▸ hj
  have hiB : i < B.rows := hABr ▸ hiA
  have hjB : j < B.cols := hABc ▸ hjA
  have edq : (mulOnes A).entry i j = 0 := by rw [mulOnes_entry A hiA hjA, hz1]
  have edp : (mulOnes B).entry i j = 0 := by rw [mulOnes_entry B hiB hjB, hz2]
  have eM : (magArr np_sqrt (mulOnes A) (mulOnes B)).entry i j = 0 := by
    simp only [magArr]
    rw [show ((mulOnes A).rows : Nat) = A.rows from rfl,
        show ((mulOnes A).cols : Nat) = A.cols from rfl,
        show ((mulOnes B).rows : Nat) = B.rows from rfl,
        show ((mulOnes B).cols : Nat) = B.cols from rfl,
        bidx_eq_of_lt hiA, bidx_eq_of_lt hjA, bidx_eq_of_lt hiB, bidx_eq_of_lt hjB,
        edq, edp]
    norm_num [hsqrt]
  have hr : (mulOnes A).rows = (mulOnes B).rows := hABr
  have hc : (mulOnes A).cols = (mulOnes B).cols := hABc
  rw [plot_eq_of_gvf np_sqrt X Q P args opts st (mulOnes A) (mulOnes B) hgv hr hc]
  refine ⟨by rw [hgv]; rfl, rfl,
    normArr (mulOnes A) (magArr np_sqrt (mulOnes A) (mulOnes B)),
    normArr (mulOnes B) (magArr np_sqrt (mulOnes A) (mulOnes B)), ?_, ?_, ?_⟩
  · unfold quiverUVs
    cases opts.dark_mode <;> cases opts.save_fig <;> simp [hv]
  · simp only [normArr]
    rw [show ((mulOnes A).rows : Nat) = A.rows from rfl,
        show ((mulOnes A).cols : Nat) = A.cols from rfl,
        bidx_eq_of_lt hiA, bidx_eq_of_lt hjA]
    rw [show ((magArr np_sqrt (mulOnes A) (mulOnes B)).rows : Nat) = A.rows from rfl,
        show ((magArr np_sqrt (mulOnes A) (mulOnes B)).cols : Nat) = A.cols from rfl,
        bidx_eq_of_lt hiA, bidx_eq_of_lt hjA, edq, eM]
    simp [npDiv, NpQ.isFinite]
  · simp only [normArr]
    rw [show ((mulOnes B).rows : Nat) = B.rows from rfl,
        show ((mulOnes B).cols : Nat) = B.cols from rfl,
        bidx_eq_of_lt hiB, bidx_eq_of_lt hjB]
    rw [show ((magArr np_sqrt (mulOnes A) (mulOnes B)).rows : Nat) = A.rows from rfl,
        show ((magArr np_sqrt (mulOnes A) (mulOnes B)).cols : Nat) = A.cols from rfl,
        bidx_eq_of_lt hiA, bidx_eq_of_lt hjA, edp, eM]
    simp [npDiv, NpQ.isFinite]

/-- Witness for C6: the all-zero system on the 2×3 grid, overlay on,
identity square root, at grid point (0, 0). -/
theorem C6_zero_vector_nonfinite_witness :
    Xzero Qc Pc (ArgSeq.list []).elems = some (NdVal.array Az, NdVal.array Az) ∧
    Az.rows = Qc.rows ∧ Az.cols = Qc.cols ∧ Az.rows = Pc.rows ∧ Az.cols = Pc.cols ∧
    Qc.rows = Pc.rows ∧ Qc.cols = Pc.cols ∧
    0 < Qc.rows ∧ 0 < Qc.cols ∧ Az.entry 0 0 = 0 ∧ Az.entry 0 0 = 0 ∧
    (fun x : ℚ => x) 0 = 0 ∧ vecFieldOpts.vec_field = true ∧
    ((FlowMate.get_vector_field Xzero [Qc, Pc] (ArgSeq.list [])).isSome = true ∧
     (FlowMate.plot_phase_portrait (fun x => x) Xzero [Qc, Pc] (ArgSeq.list [])
        vecFieldOpts whiteState).ok = true ∧
     (∃ u v,
       quiverUVs (FlowMate.plot_phase_portrait (fun x => x) Xzero [Qc, Pc]
         (ArgSeq.list []) vecFieldOpts whiteState) = [(u, v)] ∧
       (u.entry 0 0).isFinite = false ∧ (v.entry 0 0).isFinite = false)) :=
  ⟨rfl, rfl, rfl, rfl, rfl, rfl, rfl, by decide, by decide, rfl, rfl, rfl, rfl,
    C6_zero_vector_nonfinite (fun x => x) Xzero Qc Pc Az Az (ArgSeq.list [])
      vecFieldOpts whiteState 0 0 rfl rfl rfl rfl rfl rfl rfl (by decide) (by decide)
      rfl rfl rfl rfl⟩

/-- Claim C7: the top-level module and the package module define
extensionally equal functions — the two `get_vector_field` copies agree
on every input, and the two `plot_phase_portrait` copies perform the
same effects, final state and outcome on every input. -/
theorem C7_module_duplicates_agree :
    (∀ (X : HamEqns) (PS : List (Arr ℚ)) (args : ArgSeq),
      FlowMate.get_vector_field X PS args = TopInit.get_vector_field X PS args) ∧
    (∀ (np_sqrt : ℚ → ℚ) (X : HamEqns) (PS : List (Arr ℚ)) (args : ArgSeq)
      (opts : RenderOpts) (st : PltState),
      FlowMate.plot_phase_portrait np_sqrt X PS args opts st =
        TopInit.plot_phase_portrait np_sqrt X PS args opts st) :=
  ⟨fun _ _ _ => rfl, fun _ _ _ _ _ _ => rfl⟩

/-- The renderer's final global pyplot state: black facecolor exactly
when dark mode was requested, the incoming state otherwise — on every
input, including failing ones. -/
theorem plot_state_eq (np_sqrt : ℚ → ℚ) (X : HamEqns) (PS : List (Arr ℚ)) (args : ArgSeq)
    (opts : RenderOpts) (st : PltState) :
    (FlowMate.plot_phase_portrait np_sqrt X PS args opts st).state =
      if opts.dark_mode then PltState.mk "black" else st := by
  rcases PS with _ | ⟨q, _ | ⟨p, _ | ⟨r, rest⟩⟩⟩ <;>
    simp only [FlowMate.plot_phase_portrait]
  all_goals (repeat' split) <;> rfl

/-- Claim C8: a successful renderer call writes exactly the fixed
relative path `phase_portrait.png` at the requested dpi when `save_fig`
is true and writes nothing when it is false; with `save_fig` false the
`dpi` parameter has no observable effect at all. -/
theorem C8_savefig_iff (np_sqrt : ℚ → ℚ) (X : HamEqns) (PS : List (Arr ℚ)) (args : ArgSeq)
    (opts : RenderOpts) (st : PltState) (d d' : ℚ) :
    ((FlowMate.plot_phase_portrait np_sqrt X PS args opts st).ok = true →
      savedFiles (FlowMate.plot_phase_portrait np_sqrt X PS args opts st) =
        if opts.save_fig then [("phase_portrait.png", opts.dpi)] else []) ∧
    FlowMate.plot_phase_portrait np_sqrt X PS args
        (RenderOpts.mk opts.vec_field false opts.density opts.cmap d opts.dark_mode) st =
      FlowMate.plot_phase_portrait np_sqrt X PS args
        (RenderOpts.mk opts.vec_field false opts.density opts.cmap d' opts.dark_mode) st := by
  constructor
  · rcases PS with _ | ⟨q, _ | ⟨p, _ | ⟨r, rest⟩⟩⟩
    · intro h; exact absurd h (by simp [FlowMate.plot_phase_portrait])
    · intro h; exact absurd h (by simp [FlowMate.plot_phase_portrait])
    case cons.cons.nil =>
      simp only [FlowMate.plot_phase_portrait]
      cases hgv : FlowMate.get_vector_field X [q, p] args with
      | none => intro h; simp at h
      | some dd =>
        obtain ⟨dq, dp⟩ := dd
        dsimp only
        cases hmag : Arr.zipB (fun a b => np_sqrt (a ^ 2 + b ^ 2)) dq dp with
        | none => intro h; simp at h
        | some M =>
          dsimp only
          cases hv : opts.vec_field with
          | false =>
            intro _
            unfold savedFiles
            cases opts.dark_mode <;> cases opts.save_fig <;> simp
          | true =>
            cases hu : Arr.zipB npDiv dq M with
            | none => intro h; simp at h
            | some u =>
              cases hw : Arr.zipB npDiv dp M with
              | none => intro h; simp at h
              | some v =>
                intro _
                unfold savedFiles
                cases opts.dark_mode <;> cases opts.save_fig <;> simp
    · intro h; exact absurd h (by simp [FlowMate.plot_phase_portrait])
  · rcases PS with _ | ⟨q, _ | ⟨p, _ | ⟨r, rest⟩⟩⟩ <;> rfl

/-- Witness for C8: a successful saving run of the constant system. -/
theorem C8_savefig_iff_witness :
    (FlowMate.plot_phase_portrait (fun x => x) Xconst [Qc, Pc] (ArgSeq.list [])
      saveOpts whiteState).ok = true ∧
    savedFiles (FlowMate.plot_phase_portrait (fun x => x) Xconst [Qc, Pc] (ArgSeq.list [])
        saveOpts whiteState) =
      if saveOpts.save_fig then [("phase_portrait.png", saveOpts.dpi)] else [] :=
  ⟨rfl,
    (C8_savefig_iff (fun x => x) Xconst [Qc, Pc] (ArgSeq.list []) saveOpts
      whiteState 1 2).1 rfl⟩

/-- A black facecolor is preserved by any further renderer calls. -/
theorem runCalls_black (cs : List Call) (st : PltState) (h : st.facecolor = "black") :
    (runCalls cs st).facecolor = "black" := by
  induction cs generalizing st with
  | nil => simpa [runCalls] using h
  | cons c cs ih =>
    simp only [runCalls]
    apply ih
    rw [plot_state_eq]
    cases hdm : c.opts.dark_mode <;> simp [h]

/-- Claim C9: one renderer call sets the global background to black
exactly when `dark_mode` is true and otherwise leaves it untouched
(never resetting it); hence over any sequence of calls, once some call
ran with `dark_mode = true` the global background stays black. -/
theorem C9_dark_mode_persists :
    (∀ (c : Call) (st : PltState),
      (FlowMate.plot_phase_portrait c.np_sqrt c.X c.PS c.args c.opts st).state.facecolor =
        if c.opts.dark_mode then "black" else st.facecolor) ∧
    (∀ (cs : List Call) (st : PltState), (∃ c ∈ cs, c.opts.dark_mode = true) →
      (runCalls cs st).facecolor = "black") := by
  constructor
  · intro c st
    rw [plot_state_eq]
    cases c.opts.dark_mode <;> simp
  · intro cs
    induction cs with
    | nil =>
      intro st h
      rcases h with ⟨c, hc, _⟩
      cases hc
    | cons c' cs' ih =>
      intro st h
      rcases h with ⟨c, hc, hdm⟩
      rcases List.mem_cons.mp hc with rfl | hmem
      · simp only [runCalls]
        apply runCalls_black
        rw [plot_state_eq, hdm]
        rfl
      · simp only [runCalls]
        exact ih _ ⟨c, hmem, hdm⟩

/-- Witness for C9: one default (dark) call turns a white background
black. -/
theorem C9_dark_mode_persists_witness :
    (∃ c ∈ [darkCall], c.opts.dark_mode = true) ∧
    (runCalls [darkCall] whiteState).facecolor = "black" :=
  ⟨⟨darkCall, List.mem_singleton.mpr rfl, rfl⟩,
    C9_dark_mode_persists.2 [darkCall] whiteState
      ⟨darkCall, List.mem_singleton.mpr rfl, rfl⟩⟩

/-- Claim C10: both functions require a two-component phase space; on
any other length the unpacking fails before the equations function is
ever consulted — the evaluator returns no vector field, the result is
independent of the equations function, and the renderer raises with
nothing drawn or saved. -/
theorem C10_two_component_unpack (np_sqrt : ℚ → ℚ) (X X' : HamEqns)
    (PS : List (Arr ℚ)) (args : ArgSeq) (opts : RenderOpts) (st : PltState)
    (h : PS.length ≠ 2) :
    FlowMate.get_vector_field X PS args = none ∧
    FlowMate.get_vector_field X PS args = FlowMate.get_vector_field X' PS args ∧
    (FlowMate.plot_phase_portrait np_sqrt X PS args opts st).ok = false ∧
    (∀ e ∈ (FlowMate.plot_phase_portrait np_sqrt X PS args opts st).effects,
      e.isDrawOrSave = false) ∧
    FlowMate.plot_phase_portrait np_sqrt X PS args opts st =
      FlowMate.plot_phase_portrait np_sqrt X' PS args opts st := by
  rcases PS with _ | ⟨a, _ | ⟨b, _ | ⟨c, rest⟩⟩⟩
  · refine ⟨rfl, rfl, rfl, ?_, rfl⟩
    simp only [FlowMate.plot_phase_portrait]
    cases opts.dark_mode <;> simp [Effect.isDrawOrSave]
  · refine ⟨rfl, rfl, rfl, ?_, rfl⟩
    simp only [FlowMate.plot_phase_portrait]
    cases opts.dark_mode <;> simp [Effect.isDrawOrSave]
  · exact absurd rfl h
  · refine ⟨rfl, rfl, rfl, ?_, rfl⟩
    simp only [FlowMate.plot_phase_portrait]
    cases opts.dark_mode <;> simp [Effect.isDrawOrSave]

/-- Witness for C10: the empty phase-space list. -/
theorem C10_two_component_unpack_witness :
    (([] : List (Arr ℚ)).length ≠ 2) ∧
    (FlowMate.get_vector_field Xconst [] (ArgSeq.list []) = none ∧
     FlowMate.get_vector_field Xconst [] (ArgSeq.list []) =
       FlowMate.get_vector_field Xzero [] (ArgSeq.list []) ∧
     (FlowMate.plot_phase_portrait (fun x => x) Xconst [] (ArgSeq.list [])
        defaultOpts whiteState).ok = false ∧
     (∀ e ∈ (FlowMate.plot_phase_portrait (fun x => x) Xconst [] (ArgSeq.list [])
        defaultOpts whiteState).effects, e.isDrawOrSave = false) ∧
     FlowMate.plot_phase_portrait (fun x => x) Xconst [] (ArgSeq.list [])
        defaultOpts whiteState =
       FlowMate.plot_phase_portrait (fun x => x) Xzero [] (ArgSeq.list [])
        defaultOpts whiteState) :=
  ⟨by decide,
    C10_two_component_unpack (fun x => x) Xconst Xzero [] (ArgSeq.list [])
      defaultOpts whiteState (by decide)⟩
